import Mathlib

/-!
Verification of the magstripe-rs magnetic-stripe decoder.

This file gives a shallow embedding of the library's data model and decoders
(`src/bitstream.rs`, `src/decoder/common.rs`, `src/decoder/track1.rs`,
`src/decoder/track2.rs`, `src/decoder/track3.rs`, `src/decoder/custom.rs`,
`src/decoder.rs`) and proves properties of the decode pipeline.

Conventions of the embedding:
* Rust `u8` bytes are `Nat` values (callers supply values `< 256`; all
  arithmetic performed on them by the code stays inside `Nat` for the
  character widths 1..8 actually used, so no wraparound modelling is needed).
* Rust `usize` is `Nat`; the one place the source can underflow a `usize`
  subtraction (`stream.len() - 5` at the head of the Track 2 scan loop,
  a panic in checked builds) is modelled by returning `none`; every normal
  return value is `some (Except.error e)` or `some (Except.ok v)`.
* Loops are embedded as fuel-indexed structural recursions.  The fuel given
  by the decoders (`stream.len + 1`) is proved sufficient where a claim
  needs it; running out of fuel also yields `none`.
* `BitStream` values produced by `BitStream.new` always satisfy
  `bit_count ≤ 8 * buffer.length` (the buffer is shrunk to
  `ceil(bit_count/8)` bytes); theorems that need this constructor invariant
  take it as an explicit hypothesis.
-/

deriving instance DecidableEq for Except

namespace Magstripe

/-- Structure `BitStream` from `src/bitstream.rs`: a byte buffer plus an explicit
bit count; bits are left-aligned (bit 0 is the MSB of byte 0). -/
structure BitStream where
  buffer : List Nat
  bit_count : Nat
deriving DecidableEq

/-- Method `BitStream::len`. -/
def BitStream.len (s : BitStream) : Nat := s.bit_count

/-- Error type `BitStreamError` from `src/bitstream.rs`. -/
inductive BitStreamError where
  | BufferTooSmall (required_bytes provided_bytes : Nat)
deriving DecidableEq

/-- Constructor `BitStream::new`: fails when the buffer holds fewer than
`bit_count.div_ceil(8)` bytes, otherwise keeps exactly that many bytes. -/
def BitStream.new (buffer : List Nat) (bit_count : Nat) : Except BitStreamError BitStream :=
  let required_bytes := (bit_count + 7) / 8
  if buffer.length < required_bytes then
    Except.error (BitStreamError.BufferTooSmall required_bytes buffer.length)
  else
    Except.ok { buffer := buffer.take required_bytes, bit_count := bit_count }

/-- Enum `ParityType` from `src/lib.rs`. -/
inductive ParityType where
  | Odd
  | Even
  | None
deriving DecidableEq

/-- Structure `FormatSpec` from `src/lib.rs` (payload of `Format::Custom`). -/
structure FormatSpec where
  bits_per_char : Nat
  start_sentinel : Option Nat
  end_sentinel : Option Nat
  lsb_first : Bool
  parity : ParityType
  inverted : Bool
deriving DecidableEq

/-- Enum `Format` from `src/lib.rs`. -/
inductive Format where
  | Track1
  | Track1Inverted
  | Track2
  | Track2Inverted
  | Track2MSB
  | Track2LSB
  | Track2Raw
  | Track2SwappedParity
  | Track2EvenParity
  | Track3
  | Custom (spec : FormatSpec)
deriving DecidableEq

/-- Enum `DecoderError` from `src/lib.rs`. -/
inductive DecoderError where
  | NoFormatsProvided
  | NoValidFormat (attempted : Nat)
  | BitstreamTooShort (bit_count minimum_required : Nat)
  | ParityError (position : Nat)
  | InvalidStartSentinel
  | InvalidEndSentinel
  | LrcCheckFailed
  | InvalidCharacter (position character : Nat)
  | InvalidCustomFormat (reason : String)
deriving DecidableEq

/-- Structure `DecoderOutput` from `src/lib.rs` (the borrowed `&Format` is embedded
by value). -/
structure DecoderOutput where
  data : String
  format : Format
deriving DecidableEq

/-- One source bit of the stream, read MSB-first within its byte:
`(buffer[byte_idx] >> (7 - bit_in_byte)) & 1` from `extract_bits`. -/
def bitAt (buffer : List Nat) (absolute_bit : Nat) : Nat :=
  (buffer.getD (absolute_bit / 8) 0 >>> (7 - absolute_bit % 8)) &&& 1

/-- Loop body of `extract_bits` (`src/decoder/common.rs`): accumulate
`width` bits least-significant-bit-first, failing on an out-of-range byte. -/
def extractAux (buffer : List Nat) (offset : Nat) : Nat → Nat → Nat → Option Nat
  | 0, _, result => some result
  | k + 1, bit_idx, result =>
    if buffer.length ≤ (offset + bit_idx) / 8 then none
    else
      extractAux buffer offset k (bit_idx + 1)
        (result ||| (bitAt buffer (offset + bit_idx) <<< bit_idx))

/-- Loop body of `extract_bits_msb`: same traversal, accumulating
most-significant-bit-first (`bit << (bits_per_char - 1 - bit_idx)`). -/
def extractMsbAux (buffer : List Nat) (offset w : Nat) : Nat → Nat → Nat → Option Nat
  | 0, _, result => some result
  | k + 1, bit_idx, result =>
    if buffer.length ≤ (offset + bit_idx) / 8 then none
    else
      extractMsbAux buffer offset w k (bit_idx + 1)
        (result ||| (bitAt buffer (offset + bit_idx) <<< (w - 1 - bit_idx)))

/-- Function `extract_bits` from `src/decoder/common.rs`. -/
def extract_bits (stream : BitStream) (offset : Nat) (bits_per_char : Nat) : Option Nat :=
  if stream.len < offset + bits_per_char then none
  else extractAux stream.buffer offset bits_per_char 0 0

/-- Function `extract_bits_msb` from `src/decoder/common.rs`. -/
def extract_bits_msb (stream : BitStream) (offset : Nat) (bits_per_char : Nat) : Option Nat :=
  if stream.len < offset + bits_per_char then none
  else extractMsbAux stream.buffer offset bits_per_char bits_per_char 0 0

/-- Function `invert_bits`: bitwise complement of a `u8`. -/
def invert_bits (byte : Nat) : Nat := byte ^^^ 0xFF

/-- The set-bit count among the low `bits` bits of `value`, as counted by the
loops in `check_parity` / the LRC routines. -/
def parityCount (value : Nat) : Nat → Nat
  | 0 => 0
  | i + 1 => parityCount value i + ((value >>> i) &&& 1)

/-- Function `check_parity` from `src/decoder/common.rs`. -/
def check_parity (value bits : Nat) (parity_type : ParityType) : Bool :=
  match parity_type with
  | ParityType.None => true
  | ParityType.Odd => parityCount value bits % 2 == 1
  | ParityType.Even => parityCount value bits % 2 == 0

/-- Function `calculate_lrc_track2`: XOR of all characters; if the low-5-bit set
count of the XOR is odd, flip bit 4 to force even parity. -/
def calculate_lrc_track2 (data : List Nat) : Nat :=
  let lrc := data.foldl (fun a b => a ^^^ b) 0
  if parityCount lrc 5 % 2 == 1 then lrc ^^^ 0b10000 else lrc

/-- Function `calculate_lrc_track1`: XOR of the low 6 bits of all characters; if the
low-6-bit set count of the XOR is even, set bit 6. -/
def calculate_lrc_track1 (data : List Nat) : Nat :=
  let lrc := data.foldl (fun a b => a ^^^ (b &&& 0x3F)) 0
  if parityCount lrc 6 % 2 == 0 then lrc ||| 0x40 else lrc

/-- Function `bitrev5` from `src/decoder/track2.rs`: reverse the low 5 bits. -/
def bitrev5 (v : Nat) : Nat :=
  ((v &&& 0b00001) <<< 4) |||
  ((v &&& 0b00010) <<< 2) |||
  (v &&& 0b00100) |||
  ((v &&& 0b01000) >>> 2) |||
  ((v &&& 0b10000) >>> 4)

/-- Function `read_char5` from `src/decoder/track2.rs`: extract LSB-first, bit-reverse
when the wire is MSB-first, then XOR with `0x1F` when polarity-inverted. -/
def read_char5 (stream : BitStream) (off : Nat) (lsb_first_on_wire inverted : Bool) :
    Option Nat :=
  match extract_bits stream off 5 with
  | none => none
  | some v0 =>
    let v1 := if lsb_first_on_wire then v0 else bitrev5 v0
    let v2 := if inverted then v1 ^^^ 0x1F else v1
    some (v2 &&& 0x1F)

/-- Function `decode_track2_character`: 4 data bits map onto ASCII `0x30 + value`
(digits and `:;<=>?`); every arm of the source `match` in range
`0x30..=0x3F` returns that ASCII character. -/
def decode_track2_character (data_bits : Nat) : Except DecoderError Char :=
  let ascii_code := 0x30 + data_bits
  if 0x30 ≤ ascii_code ∧ ascii_code ≤ 0x3F then Except.ok (Char.ofNat ascii_code)
  else Except.error (DecoderError.InvalidCharacter 0 data_bits)

/-- The `if result.is_empty()` epilogue of `decode_track2`. -/
def track2Finish (result : String) : Except DecoderError String :=
  if result = "" then Except.error (DecoderError.NoValidFormat 1) else Except.ok result

/-- Start-sentinel search of `decode_track2` (single-bit stepping over
`0b01011`); returns the lock offset.  Fuel-indexed; `none` means the fuel ran
out (the callers use fuel that is proved sufficient). -/
def track2Search (stream : BitStream) (lsb_first inverted : Bool) :
    Nat → Nat → Option (Except DecoderError Nat)
  | 0, search_offset =>
    if search_offset + 5 ≤ stream.len then none
    else some (Except.error DecoderError.InvalidStartSentinel)
  | fuel + 1, search_offset =>
    if search_offset + 5 ≤ stream.len then
      match read_char5 stream search_offset lsb_first inverted with
      | none =>
        some (Except.error (DecoderError.BitstreamTooShort stream.len (search_offset + 5)))
      | some char_bits =>
        if char_bits = 0b01011 then some (Except.ok search_offset)
        else track2Search stream lsb_first inverted fuel (search_offset + 1)
    else some (Except.error DecoderError.InvalidStartSentinel)

/-- Main scan loop of `decode_track2` (`while offset <= stream.len() - 5`),
entered with `stream.len ≥ 5` so the `usize` subtraction in the condition is
well defined.  Fuel-indexed; `none` means the fuel ran out. -/
def track2Loop (stream : BitStream)
    (inverted lsb_first no_sentinels swapped_parity even_parity : Bool) :
    Nat → Nat → String → List Nat → Option (Except DecoderError String)
  | 0, offset, result, _ =>
    if offset ≤ stream.len - 5 then none else some (track2Finish result)
  | fuel + 1, offset, result, chars_read =>
    if offset ≤ stream.len - 5 then
      match read_char5 stream offset lsb_first inverted with
      | none =>
        some (Except.error (DecoderError.BitstreamTooShort stream.len (offset + 5)))
      | some char_bits =>
        let data_bits := if swapped_parity then char_bits &&& 0x0F else char_bits &&& 0x0F
        let parity_type := if even_parity then ParityType.Even else ParityType.Odd
        if check_parity char_bits 5 parity_type = false then
          some (Except.error (DecoderError.ParityError (offset / 5)))
        else
          let chars_read1 := chars_read ++ [char_bits]
          if no_sentinels = false ∧ char_bits = 0b11111 then
            let offset1 := offset + 5
            if offset1 + 5 ≤ stream.len then
              match read_char5 stream offset1 lsb_first inverted with
              | none =>
                some (Except.error (DecoderError.BitstreamTooShort stream.len (offset1 + 5)))
              | some lrc_bits =>
                let calculated_lrc := calculate_lrc_track2 chars_read1.dropLast
                let calculated_lrc := if inverted then calculated_lrc ^^^ 0x1F else calculated_lrc
                if lrc_bits ≠ calculated_lrc then some (Except.error DecoderError.LrcCheckFailed)
                else some (track2Finish result)
            else some (track2Finish result)
          else
            match decode_track2_character data_bits with
            | Except.error e => some (Except.error e)
            | Except.ok c =>
              track2Loop stream inverted lsb_first no_sentinels swapped_parity even_parity
                fuel (offset + 5) (result.push c) chars_read1
    else some (track2Finish result)

/-- Function `decode_track2` from `src/decoder/track2.rs`.  `none` models either the
checked-build panic of `stream.len() - 5` when the loop head is reached with
fewer than 5 bits, or fuel exhaustion (proved impossible for the supplied
fuel). -/
def decode_track2 (stream : BitStream)
    (inverted lsb_first no_sentinels swapped_parity even_parity : Bool) :
    Option (Except DecoderError String) :=
  if no_sentinels = false ∧ stream.len < 15 then
    some (Except.error (DecoderError.BitstreamTooShort stream.len 15))
  else
    let startState : Option (Except DecoderError (Nat × List Nat)) :=
      if no_sentinels then some (Except.ok (0, []))
      else
        match track2Search stream lsb_first inverted (stream.len + 1) 0 with
        | none => none
        | some (Except.error e) => some (Except.error e)
        | some (Except.ok o) => some (Except.ok (o + 5, [0b01011]))
    match startState with
    | none => none
    | some (Except.error e) => some (Except.error e)
    | some (Except.ok (offset, chars_read)) =>
      if stream.len < 5 then none
      else
        track2Loop stream inverted lsb_first no_sentinels swapped_parity even_parity
          (stream.len + 1) offset "" chars_read

/-- Function `decode_track3` from `src/decoder/track3.rs`: pure delegation to the
default Track 2 profile. -/
def decode_track3 (stream : BitStream) : Option (Except DecoderError String) :=
  decode_track2 stream false true false false false

/-- Function `decode_track1_character`: 6 data bits map onto ASCII `0x20 + value`;
the range test `0x20..=0x5F` of the source is kept verbatim. -/
def decode_track1_character (data_bits : Nat) : Except DecoderError Char :=
  let ascii_code := 0x20 + data_bits
  if 0x20 ≤ ascii_code ∧ ascii_code ≤ 0x5F then Except.ok (Char.ofNat ascii_code)
  else Except.error (DecoderError.InvalidCharacter 0 data_bits)

/-- Post-loop epilogue of `decode_track1`: missing start sentinel, then
empty result, then success. -/
def track1Finish (found_start : Bool) (result : String) : Except DecoderError String :=
  if found_start = false then Except.error DecoderError.InvalidStartSentinel
  else if result = "" then Except.error (DecoderError.NoValidFormat 1)
  else Except.ok result

/-- Main scan loop of `decode_track1` (`while offset + 7 <= stream.len()`).
Fuel-indexed; `none` means the fuel ran out. -/
def track1Loop (stream : BitStream) (inverted : Bool) :
    Nat → Nat → Bool → String → List Nat → Option (Except DecoderError String)
  | 0, offset, found_start, result, _ =>
    if offset + 7 ≤ stream.len then none else some (track1Finish found_start result)
  | fuel + 1, offset, found_start, result, chars_read =>
    if offset + 7 ≤ stream.len then
      match extract_bits stream offset 7 with
      | none =>
        some (Except.error (DecoderError.BitstreamTooShort stream.len (offset + 7)))
      | some raw =>
        let char_bits := if inverted then invert_bits raw &&& 0x7F else raw
        if check_parity char_bits 7 ParityType.Odd = false then
          some (Except.error (DecoderError.ParityError (offset / 7)))
        else
          let data_bits := char_bits &&& 0x3F
          let chars_read1 := chars_read ++ [char_bits]
          if found_start = false then
            track1Loop stream inverted fuel (offset + 7) (data_bits = 0b0000101)
              result chars_read1
          else if data_bits = 0b0011111 then
            let offset1 := offset + 7
            if offset1 + 7 ≤ stream.len then
              let lrc_bits := (extract_bits stream offset1 7).getD 0
              let calculated_lrc := calculate_lrc_track1 chars_read1.dropLast
              if lrc_bits &&& 0x7F ≠ calculated_lrc then
                some (Except.error DecoderError.LrcCheckFailed)
              else some (track1Finish true result)
            else some (track1Finish true result)
          else
            match decode_track1_character data_bits with
            | Except.error e => some (Except.error e)
            | Except.ok c =>
              track1Loop stream inverted fuel (offset + 7) found_start
                (result.push c) chars_read1
    else some (track1Finish found_start result)

/-- Function `decode_track1` from `src/decoder/track1.rs`. -/
def decode_track1 (stream : BitStream) (inverted : Bool) :
    Option (Except DecoderError String) :=
  if stream.len < 21 then
    some (Except.error (DecoderError.BitstreamTooShort stream.len 21))
  else track1Loop stream inverted (stream.len + 1) 0 false "" []

/-- Function `decode_custom_character` from `src/decoder/custom.rs`; the width-5,
width-7 and width-8 arms always succeed (their range tests cannot fail). -/
def decode_custom_character (char_bits : Nat) (spec : FormatSpec) :
    Except DecoderError Char :=
  let data_bits :=
    if spec.parity ≠ ParityType.None ∧ 1 < spec.bits_per_char then
      char_bits &&& ((1 <<< (spec.bits_per_char - 1)) - 1)
    else char_bits
  match spec.bits_per_char with
  | 5 => Except.ok (Char.ofNat (0x30 + (data_bits &&& 0x0F)))
  | 7 => Except.ok (Char.ofNat (0x20 + (data_bits &&& 0x3F)))
  | 8 => Except.ok (Char.ofNat data_bits)
  | _ =>
    if data_bits ≤ 9 then Except.ok (Char.ofNat (0x30 + data_bits))
    else Except.error (DecoderError.InvalidCharacter 0 data_bits)

/-- Post-loop epilogue of `decode_custom`. -/
def customFinish (spec : FormatSpec) (found_start found_end : Bool) (result : String) :
    Except DecoderError String :=
  if spec.start_sentinel.isSome ∧ found_start = false then
    Except.error DecoderError.InvalidStartSentinel
  else if spec.end_sentinel.isSome ∧ found_end = false then
    Except.error DecoderError.InvalidEndSentinel
  else if result = "" then Except.error (DecoderError.NoValidFormat 1)
  else Except.ok result

/-- Main scan loop of `decode_custom`.  The inversion mask
`(1u8 << bits_per_char) - 1` overflows `u8` when `bits_per_char = 8`
(a panic in checked builds), modelled by `none`. -/
def customLoop (stream : BitStream) (spec : FormatSpec) :
    Nat → Nat → Bool → String → Option (Except DecoderError String)
  | 0, offset, found_start, result =>
    if offset + spec.bits_per_char ≤ stream.len then none
    else some (customFinish spec found_start false result)
  | fuel + 1, offset, found_start, result =>
    if offset + spec.bits_per_char ≤ stream.len then
      match (if spec.lsb_first then extract_bits stream offset spec.bits_per_char
             else extract_bits_msb stream offset spec.bits_per_char) with
      | none =>
        some (Except.error
          (DecoderError.BitstreamTooShort stream.len (offset + spec.bits_per_char)))
      | some raw =>
        if spec.inverted ∧ spec.bits_per_char = 8 then none
        else
          let char_bits :=
            if spec.inverted then invert_bits raw &&& ((1 <<< spec.bits_per_char) - 1)
            else raw
          if spec.parity ≠ ParityType.None ∧
              check_parity char_bits spec.bits_per_char spec.parity = false then
            some (Except.error (DecoderError.ParityError (offset / spec.bits_per_char)))
          else if spec.start_sentinel.isSome ∧ found_start = false then
            customLoop stream spec fuel (offset + spec.bits_per_char)
              (spec.start_sentinel = some char_bits) result
          else if spec.end_sentinel = some char_bits then
            some (customFinish spec found_start true result)
          else
            match decode_custom_character char_bits spec with
            | Except.error e => some (Except.error e)
            | Except.ok c =>
              customLoop stream spec fuel (offset + spec.bits_per_char)
                found_start (result.push c)
    else some (customFinish spec found_start false result)

/-- Function `decode_custom` from `src/decoder/custom.rs`. -/
def decode_custom (stream : BitStream) (spec : FormatSpec) :
    Option (Except DecoderError String) :=
  if spec.bits_per_char = 0 ∨ 8 < spec.bits_per_char then
    some (Except.error (DecoderError.InvalidCustomFormat
      ("Invalid bits_per_char: " ++ toString spec.bits_per_char)))
  else customLoop stream spec (stream.len + 1) 0 spec.start_sentinel.isNone ""

/-- Function `try_decode_format` from `src/decoder.rs`. -/
def try_decode_format (format : Format) (stream : BitStream) :
    Option (Except DecoderError String) :=
  match format with
  | Format.Track2 => decode_track2 stream false true false false false
  | Format.Track2Inverted => decode_track2 stream true true false false false
  | Format.Track2MSB => decode_track2 stream false false false false false
  | Format.Track2LSB => decode_track2 stream false true false false false
  | Format.Track2Raw => decode_track2 stream false true true false false
  | Format.Track2SwappedParity => decode_track2 stream false true false true false
  | Format.Track2EvenParity => decode_track2 stream false true false false true
  | Format.Track1 => decode_track1 stream false
  | Format.Track1Inverted => decode_track1 stream true
  | Format.Track3 => decode_track3 stream
  | Format.Custom spec => decode_custom stream spec

/-- The format-trial loop of `decode_with_formats`; `total` is the length of
the full caller-supplied list (used in the aggregate error). -/
def decodeGo (stream : BitStream) (total : Nat) :
    List Format → Option (Except DecoderError DecoderOutput)
  | [] => some (Except.error (DecoderError.NoValidFormat total))
  | f :: rest =>
    match try_decode_format f stream with
    | none => none
    | some (Except.ok data) => some (Except.ok ⟨data, f⟩)
    | some (Except.error _) => decodeGo stream total rest

/-- Function `decode_with_formats` from `src/decoder.rs`. -/
def decode_with_formats (formats : List Format) (stream : BitStream) :
    Option (Except DecoderError DecoderOutput) :=
  if formats.isEmpty then some (Except.error DecoderError.NoFormatsProvided)
  else decodeGo stream formats.length formats

/-- The character window of `decode_track1` (lines 28–37 of
`src/decoder/track1.rs`): the raw 7-bit LSB-first window with the optional
polarity inversion applied.  Used to state trace hypotheses about streams. -/
def track1_char (stream : BitStream) (off : Nat) (inverted : Bool) : Option Nat :=
  match extract_bits stream off 7 with
  | none => none
  | some raw => some (if inverted then invert_bits raw &&& 0x7F else raw)

/-- The checksum step of `decode_track2` (lines 148–172): reached right after
the end sentinel was consumed at `offset1 - 5`; `kept` is `chars_read`
without the end sentinel (`chars_read[..len-1]`). -/
def track2AfterEnd (stream : BitStream) (inverted lsb_first : Bool) (offset1 : Nat)
    (kept : List Nat) (result : String) : Option (Except DecoderError String) :=
  if offset1 + 5 ≤ stream.len then
    match read_char5 stream offset1 lsb_first inverted with
    | none => some (Except.error (DecoderError.BitstreamTooShort stream.len (offset1 + 5)))
    | some lrc_bits =>
      let calculated_lrc := calculate_lrc_track2 kept
      let calculated_lrc := if inverted then calculated_lrc ^^^ 0x1F else calculated_lrc
      if lrc_bits ≠ calculated_lrc then some (Except.error DecoderError.LrcCheckFailed)
      else some (track2Finish result)
  else some (track2Finish result)

/-- The checksum step of `decode_track1` (lines 62–75): reached right after
the end sentinel was consumed at `offset1 - 7`; `kept` is `chars_read`
without the end sentinel. -/
def track1AfterEnd (stream : BitStream) (offset1 : Nat) (kept : List Nat)
    (result : String) : Option (Except DecoderError String) :=
  if offset1 + 7 ≤ stream.len then
    let lrc_bits := (extract_bits stream offset1 7).getD 0
    if lrc_bits &&& 0x7F ≠ calculate_lrc_track1 kept then
      some (Except.error DecoderError.LrcCheckFailed)
    else some (track1Finish true result)
  else some (track1Finish true result)

/-- The real-world card of `tests/integration_tests.rs` (17 bytes, 130 bits),
known to decode as `Track2Inverted` to `"0004048712"`. -/
def card130 : BitStream :=
  ⟨[255, 255, 255, 151, 222, 246, 253, 190, 141, 247, 7, 127, 255, 255, 255, 255, 192], 130⟩

/-- A 20-bit Track 2 stream `; 1 ? L` whose trailing checksum character `L` is
the value the source computes (LRC over `;1`, end sentinel excluded). -/
def ex20 : BitStream := ⟨[212, 62, 160], 20⟩

/-- Like `ex20` but the checksum character is `lrcTrack2(; 1 ?)` — the value
the specification text predicts (end sentinel included). -/
def ex20ce : BitStream := ⟨[212, 63, 64], 20⟩

/-- A 15-bit Track 2 stream `; 1 ?` ending exactly at the end sentinel: no
room for a checksum character. -/
def ex15 : BitStream := ⟨[212, 62], 15⟩

/-- A 28-bit Track 1 stream `% 1 ? L` whose trailing checksum character `L` is
the value the source computes (LRC over `%1`, end sentinel excluded). -/
def ex28 : BitStream := ⟨[163, 23, 225, 80], 28⟩

/-- A 35-bit Track 1 stream `a % 1 ? L` with one character before the start
sentinel; its checksum character is `lrcTrack1(% 1 ?)` — the value the
specification text predicts (pre-sentinel characters excluded, end sentinel
included). -/
def ex35ce : BitStream := ⟨[135, 70, 47, 205, 0], 35⟩

/-- A 21-bit Track 1 stream `% 1 ?` ending exactly at the end sentinel. -/
def ex21 : BitStream := ⟨[163, 23, 224], 21⟩

/-- A stream of 24 zero bits: fails every format (no sentinel, even parity). -/
def zero24 : BitStream := ⟨[0, 0, 0], 24⟩

/-- One arbitrary byte viewed as 8 bits, for extraction witnesses. -/
def exByte : BitStream := ⟨[0b10110010], 8⟩

theorem extract_bits_some_bound {stream : BitStream} {offset w v : Nat}
    (h : extract_bits stream offset w = some v) : offset + w ≤ stream.len := by
  unfold extract_bits at h
  by_cases hlt : stream.len < offset + w
  · simp [hlt] at h
  · omega

theorem read_char5_some_bound {stream : BitStream} {off : Nat} {l i : Bool} {v : Nat}
    (h : read_char5 stream off l i = some v) : off + 5 ≤ stream.len := by
  unfold read_char5 at h
  cases hx : extract_bits stream off 5 with
  | none => rw [hx] at h; exact absurd h (by simp)
  | some raw => exact extract_bits_some_bound hx

theorem track1_char_some_bound {stream : BitStream} {off : Nat} {i : Bool} {v : Nat}
    (h : track1_char stream off i = some v) : off + 7 ≤ stream.len := by
  unfold track1_char at h
  cases hx : extract_bits stream off 7 with
  | none => rw [hx] at h; exact absurd h (by simp)
  | some raw => exact extract_bits_some_bound hx

theorem extractAux_isSome (buffer : List Nat) (offset : Nat) :
    ∀ (k bit_idx acc : Nat), (∀ i, i < k → (offset + bit_idx + i) / 8 < buffer.length) →
      ∃ v, extractAux buffer offset k bit_idx acc = some v := by
  intro k
  induction k with
  | zero => intro bit_idx acc _; exact ⟨acc, rfl⟩
  | succ n ih =>
    intro bit_idx acc hB
    have h0 : (offset + bit_idx) / 8 < buffer.length := by
      have := hB 0 (Nat.succ_pos n); simpa using this
    have h0n : ¬ buffer.length ≤ (offset + bit_idx) / 8 := by omega
    simp only [extractAux]
    rw [if_neg h0n]
    refine ih (bit_idx + 1) _ (fun i hi => ?_)
    have h2 : offset + (bit_idx + 1) + i = offset + bit_idx + (i + 1) := by omega
    rw [h2]
    exact hB (i + 1) (by omega)

theorem extract_bits_total {stream : BitStream}
    (hinv : stream.bit_count ≤ 8 * stream.buffer.length) {offset w : Nat}
    (h : offset + w ≤ stream.len) : ∃ v, extract_bits stream offset w = some v := by
  unfold extract_bits
  rw [if_neg (by unfold BitStream.len at h ⊢; omega)]
  refine extractAux_isSome stream.buffer offset w 0 0 (fun i hi => ?_)
  have hlt : offset + 0 + i < 8 * stream.buffer.length := by
    unfold BitStream.len at h; omega
  omega

theorem read_char5_total {stream : BitStream}
    (hinv : stream.bit_count ≤ 8 * stream.buffer.length) {off : Nat} {l i : Bool}
    (h : off + 5 ≤ stream.len) : ∃ v, read_char5 stream off l i = some v := by
  obtain ⟨raw, hraw⟩ := extract_bits_total hinv h
  unfold read_char5
  rw [hraw]
  exact ⟨_, rfl⟩

/-- C4: decoding the 17-byte buffer
`[255,255,255,151,222,246,253,190,141,247,7,127,255,255,255,255,192]` as a
130-bit stream with the inverted-polarity, LSB-first Track 2 decoder
(sentinels enabled, single-bit resynchronization) succeeds and returns
exactly `"0004048712"`. -/
theorem card130_decodes :
    try_decode_format Format.Track2Inverted card130 = some (Except.ok "0004048712") ∧
    decode_track2 card130 true true false false false = some (Except.ok "0004048712") := by
  constructor <;> decide

/-- C5: `BitStream::new` fails iff the buffer holds fewer than
`ceil(bit_count/8)` bytes, every failure carries
`required_bytes = ceil(bit_count/8)` and `provided_bytes = buffer.len()`,
and on success the stream keeps exactly the first `ceil(bit_count/8)` bytes
and reports length `bit_count`. -/
theorem bitstream_new_spec (buffer : List Nat) (bit_count : Nat) :
    (BitStream.new buffer bit_count
        = Except.error (BitStreamError.BufferTooSmall ((bit_count + 7) / 8) buffer.length)
      ↔ buffer.length < (bit_count + 7) / 8) ∧
    ((bit_count + 7) / 8 ≤ buffer.length →
      BitStream.new buffer bit_count
          = Except.ok ⟨buffer.take ((bit_count + 7) / 8), bit_count⟩ ∧
        BitStream.len ⟨buffer.take ((bit_count + 7) / 8), bit_count⟩ = bit_count) := by
  unfold BitStream.new
  by_cases h : buffer.length < (bit_count + 7) / 8
  · rw [if_pos h]
    exact ⟨by simp [h], fun hle => absurd h (by omega)⟩
  · rw [if_neg h]
    exact ⟨by simp [h], fun _ => ⟨rfl, rfl⟩⟩

/-- C5 witness: `bit_count = 16` over a 1-byte buffer fails with
`required_bytes = 2`, `provided_bytes = 1`; a 2-byte buffer succeeds with
length 16. -/
theorem bitstream_new_spec_witness :
    BitStream.new [255] 16 = Except.error (BitStreamError.BufferTooSmall 2 1) ∧
    BitStream.new [255, 0] 16 = Except.ok ⟨[255, 0], 16⟩ :=
  ⟨(bitstream_new_spec [255] 16).1.mpr (by decide),
   ((bitstream_new_spec [255, 0] 16).2 (by decide)).1⟩

/-- C6: every non-raw Track 2-family decode of a stream shorter than 15 bits
fails with `BitstreamTooShort` requiring 15; every Track 1 decode of a stream
shorter than 21 bits fails with `BitstreamTooShort` requiring 21. -/
theorem min_length_guards :
    (∀ (stream : BitStream) (inverted lsb_first swapped_parity even_parity : Bool),
      stream.len < 15 →
        decode_track2 stream inverted lsb_first false swapped_parity even_parity
          = some (Except.error (DecoderError.BitstreamTooShort stream.len 15))) ∧
    (∀ (stream : BitStream) (inverted : Bool),
      stream.len < 21 →
        decode_track1 stream inverted
          = some (Except.error (DecoderError.BitstreamTooShort stream.len 21))) := by
  constructor
  · intro stream inverted lsb_first swapped_parity even_parity h
    unfold decode_track2
    rw [if_pos ⟨rfl, h⟩]
  · intro stream inverted h
    unfold decode_track1
    rw [if_pos h]

/-- C6 witness: an 8-bit stream is rejected by both guards. -/
theorem min_length_guards_witness :
    decode_track2 exByte false true false false false
        = some (Except.error (DecoderError.BitstreamTooShort 8 15)) ∧
    decode_track1 exByte false
        = some (Except.error (DecoderError.BitstreamTooShort 8 21)) :=
  ⟨min_length_guards.1 exByte false true false false (by decide),
   min_length_guards.2 exByte false (by decide)⟩

theorem decodeGo_all_fail (stream : BitStream) (total : Nat) :
    ∀ fs : List Format,
      (∀ j, (hj : j < fs.length) →
        ∃ e, try_decode_format (fs.get ⟨j, hj⟩) stream = some (Except.error e)) →
      decodeGo stream total fs = some (Except.error (DecoderError.NoValidFormat total)) := by
  intro fs
  induction fs with
  | nil => intro _; rfl
  | cons f rest ih =>
    intro h
    obtain ⟨e, he⟩ := h 0 (Nat.succ_pos rest.length)
    simp only [List.get] at he
    simp only [decodeGo, he]
    exact ih (fun j hj => h (j + 1) (Nat.succ_lt_succ hj))

theorem decodeGo_first_success (stream : BitStream) (total : Nat) :
    ∀ (fs : List Format) (i : Nat) (hi : i < fs.length) (s : String),
      (∀ j, (hj2 : j < i) →
        ∃ e, try_decode_format (fs.get ⟨j, by omega⟩) stream = some (Except.error e)) →
      try_decode_format (fs.get ⟨i, hi⟩) stream = some (Except.ok s) →
      decodeGo stream total fs = some (Except.ok ⟨s, fs.get ⟨i, hi⟩⟩) := by
  intro fs
  induction fs with
  | nil => intro i hi; exact absurd hi (by simp)
  | cons f rest ih =>
    intro i hi s hpre hok
    cases i with
    | zero =>
      simp only [List.get] at hok ⊢
      simp only [decodeGo, hok]
    | succ n =>
      obtain ⟨e, he⟩ := hpre 0 (Nat.succ_pos n)
      simp only [List.get] at he hok ⊢
      simp only [decodeGo, he]
      exact ih n (Nat.lt_of_succ_lt_succ hi) s
        (fun j hj => by
          obtain ⟨e2, he2⟩ := hpre (j + 1) (Nat.succ_lt_succ hj)
          simpa only [List.get] using ⟨e2, he2⟩) hok

/-- C3: with an empty format list, decode fails with `NoFormatsProvided`
regardless of the stream; otherwise formats are tried in order, the first
per-format success is returned paired with its format, and when every format
fails the result is `NoValidFormat` whose `attempted` equals the list length,
whatever the individual errors were. -/
theorem decode_with_formats_contract (formats : List Format) (stream : BitStream) :
    (formats = [] →
      decode_with_formats formats stream = some (Except.error DecoderError.NoFormatsProvided)) ∧
    (∀ (i : Nat) (hi : i < formats.length) (s : String),
      (∀ j, (hj2 : j < i) →
        ∃ e, try_decode_format (formats.get ⟨j, by omega⟩) stream = some (Except.error e)) →
      try_decode_format (formats.get ⟨i, hi⟩) stream = some (Except.ok s) →
      decode_with_formats formats stream = some (Except.ok ⟨s, formats.get ⟨i, hi⟩⟩)) ∧
    ((∀ j, (hj : j < formats.length) →
        ∃ e, try_decode_format (formats.get ⟨j, hj⟩) stream = some (Except.error e)) →
      formats ≠ [] →
      decode_with_formats formats stream
        = some (Except.error (DecoderError.NoValidFormat formats.length))) := by
  refine ⟨fun he => by subst he; rfl, ?_, ?_⟩
  · intro i hi s hpre hok
    unfold decode_with_formats
    rw [if_neg (by simp [List.isEmpty_iff]; intro he; subst he; exact absurd hi (by simp))]
    exact decodeGo_first_success stream formats.length formats i hi s hpre hok
  · intro hall hne
    unfold decode_with_formats
    rw [if_neg (by simpa [List.isEmpty_iff] using hne)]
    exact decodeGo_all_fail stream formats.length formats hall

/-- C3 witness: over 24 zero bits, `[Track1, Track2]` both fail and yield
`NoValidFormat` with `attempted = 2`; the empty list yields
`NoFormatsProvided`. -/
theorem decode_with_formats_contract_witness :
    decode_with_formats [Format.Track1, Format.Track2] zero24
        = some (Except.error (DecoderError.NoValidFormat 2)) ∧
    decode_with_formats [] zero24
        = some (Except.error DecoderError.NoFormatsProvided) :=
  ⟨(decode_with_formats_contract [Format.Track1, Format.Track2] zero24).2.2
      (fun j hj => by
        have hj2 : j < 2 := by simpa using hj
        have h2 : j = 0 ∨ j = 1 := by omega
        rcases h2 with h | h <;> subst h
        · show ∃ e, try_decode_format Format.Track1 zero24 = some (Except.error e)
          exact ⟨DecoderError.ParityError 0, by decide⟩
        · show ∃ e, try_decode_format Format.Track2 zero24 = some (Except.error e)
          exact ⟨DecoderError.InvalidStartSentinel, by decide⟩)
      (by decide),
   (decode_with_formats_contract [] zero24).1 rfl⟩

theorem track2Loop_swapped (stream : BitStream)
    (inverted lsb_first no_sentinels even_parity : Bool) :
    ∀ (fuel offset : Nat) (result : String) (chars_read : List Nat),
      track2Loop stream inverted lsb_first no_sentinels true even_parity
          fuel offset result chars_read
        = track2Loop stream inverted lsb_first no_sentinels false even_parity
            fuel offset result chars_read := by
  intro fuel
  induction fuel with
  | zero => intro _ _ _; rfl
  | succ f ih => intro offset result chars_read; simp only [track2Loop, ite_self, ih]

/-- C7: the swapped-parity flag of `decode_track2` is a no-op — for every
stream and every other flag combination the decode result is identical with
the flag set or clear; in particular `Track2SwappedParity` decodes exactly
like `Track2`. -/
theorem swapped_parity_noop :
    (∀ (stream : BitStream) (inverted lsb_first no_sentinels even_parity : Bool),
      decode_track2 stream inverted lsb_first no_sentinels true even_parity
        = decode_track2 stream inverted lsb_first no_sentinels false even_parity) ∧
    (∀ stream : BitStream,
      try_decode_format Format.Track2SwappedParity stream
        = try_decode_format Format.Track2 stream) := by
  have hmain : ∀ (stream : BitStream) (inverted lsb_first no_sentinels even_parity : Bool),
      decode_track2 stream inverted lsb_first no_sentinels true even_parity
        = decode_track2 stream inverted lsb_first no_sentinels false even_parity := by
    intro stream inverted lsb_first no_sentinels even_parity
    simp only [decode_track2, track2Loop_swapped]
  exact ⟨hmain, fun stream => by
    simp only [try_decode_format]
    exact hmain stream false true false false⟩

theorem track2Search_ne_none (stream : BitStream) (lsb_first inverted : Bool) :
    ∀ (fuel offset : Nat), stream.len ≤ offset + fuel →
      track2Search stream lsb_first inverted fuel offset ≠ none := by
  intro fuel
  induction fuel with
  | zero =>
    intro offset h
    simp only [track2Search]
    rw [if_neg (by omega)]
    simp
  | succ f ih =>
    intro offset h
    simp only [track2Search]
    by_cases hc : offset + 5 ≤ stream.len
    · rw [if_pos hc]
      cases hr : read_char5 stream offset lsb_first inverted with
      | none => simp
      | some c =>
        by_cases hcs : c = 0b01011
        · simp [hcs]
        · simp only [if_neg hcs]
          exact ih (offset + 1) (by omega)
    · rw [if_neg hc]; simp

theorem track2Loop_ne_none (stream : BitStream)
    (inverted lsb_first no_sentinels swapped_parity even_parity : Bool) :
    ∀ (fuel offset : Nat) (result : String) (chars_read : List Nat),
      stream.len + 1 ≤ offset + 5 * fuel →
      track2Loop stream inverted lsb_first no_sentinels swapped_parity even_parity
          fuel offset result chars_read ≠ none := by
  intro fuel
  induction fuel with
  | zero =>
    intro offset result chars_read h
    simp only [track2Loop]
    rw [if_neg (by omega)]
    simp
  | succ f ih =>
    intro offset result chars_read h
    simp only [track2Loop]
    by_cases hc : offset ≤ stream.len - 5
    · rw [if_pos hc]
      cases hr : read_char5 stream offset lsb_first inverted with
      | none => simp
      | some c =>
        dsimp only
        by_cases hp :
            check_parity c 5 (if even_parity then ParityType.Even else ParityType.Odd) = false
        · simp [hp]
        · rw [if_neg hp]
          by_cases hes : no_sentinels = false ∧ c = 0b11111
          · rw [if_pos hes]
            by_cases hck : offset + 5 + 5 ≤ stream.len
            · rw [if_pos hck]
              cases read_char5 stream (offset + 5) lsb_first inverted with
              | none => simp
              | some lrc => dsimp only; split_ifs <;> simp
            · rw [if_neg hck]; simp
          · rw [if_neg hes]
            cases decode_track2_character (if swapped_parity then c &&& 0x0F else c &&& 0x0F) with
            | error e => simp
            | ok ch => exact ih (offset + 5) (result.push ch) (chars_read ++ [c]) (by omega)
    · rw [if_neg hc]; simp

theorem decode_track2_raw_eq (stream : BitStream)
    (inverted lsb_first swapped_parity even_parity : Bool) :
    decode_track2 stream inverted lsb_first true swapped_parity even_parity
      = if stream.len < 5 then none
        else track2Loop stream inverted lsb_first true swapped_parity even_parity
          (stream.len + 1) 0 "" [] := rfl

theorem decode_track2_nonraw_eq (stream : BitStream)
    (inverted lsb_first swapped_parity even_parity : Bool) :
    decode_track2 stream inverted lsb_first false swapped_parity even_parity
      = if stream.len < 15 then
          some (Except.error (DecoderError.BitstreamTooShort stream.len 15))
        else
          match track2Search stream lsb_first inverted (stream.len + 1) 0 with
          | none => none
          | some (Except.error e) => some (Except.error e)
          | some (Except.ok o) =>
            if stream.len < 5 then none
            else track2Loop stream inverted lsb_first false swapped_parity even_parity
              (stream.len + 1) (o + 5) "" [0b01011] := by
  unfold decode_track2
  by_cases h15 : stream.len < 15
  · rw [if_pos ⟨rfl, h15⟩, if_pos h15]
  · rw [if_neg (by simp [h15]), if_neg h15]
    cases hs : track2Search stream lsb_first inverted (stream.len + 1) 0 with
    | none => rfl
    | some r => cases r with | error e => rfl | ok o => rfl

/-- C9: the 15-bit minimum-length guard of `decode_track2` is skipped in raw
mode, and the `usize` subtraction `stream.len() - 5` at the scan-loop head
(modelled by the `none` result, a panic in checked builds) is reached exactly
when sentinels are skipped and the stream holds fewer than 5 bits; no typed
error is returned in that case. -/
theorem raw_short_stream_panics (stream : BitStream)
    (inverted lsb_first no_sentinels swapped_parity even_parity : Bool) :
    decode_track2 stream inverted lsb_first no_sentinels swapped_parity even_parity = none
      ↔ (no_sentinels = true ∧ stream.len < 5) := by
  cases no_sentinels with
  | true =>
    rw [decode_track2_raw_eq]
    by_cases h5 : stream.len < 5
    · simp [h5]
    · rw [if_neg h5]
      have := track2Loop_ne_none stream inverted lsb_first true swapped_parity even_parity
        (stream.len + 1) 0 "" [] (by omega)
      simp only [this, false_iff]
      omega
  | false =>
    rw [decode_track2_nonraw_eq]
    by_cases h15 : stream.len < 15
    · rw [if_pos h15]
      simp
    · rw [if_neg h15]
      cases hs : track2Search stream lsb_first inverted (stream.len + 1) 0 with
      | none => exact absurd hs (track2Search_ne_none stream lsb_first inverted _ 0 (by omega))
      | some r =>
        cases r with
        | error e => simp
        | ok o =>
          dsimp only
          rw [if_neg (by omega)]
          have := track2Loop_ne_none stream inverted lsb_first false swapped_parity even_parity
            (stream.len + 1) (o + 5) "" [0b01011] (by omega)
          simp only [this, false_iff]
          simp

theorem testBit_le_one {b : Nat} (hb : b ≤ 1) (d : Nat) :
    b.testBit d = (decide (b = 1) && decide (d = 0)) := by
  interval_cases b
  · simp [Nat.zero_testBit]
  · cases d with
    | zero => decide
    | succ n =>
      have h2 : (1 : Nat) < 2 ^ (n + 1) := by
        calc (1 : Nat) < 2 := by omega
        _ ≤ 2 ^ (n + 1) := Nat.le_self_pow (by omega) 2
      rw [Nat.testBit_eq_false_of_lt h2]
      simp

theorem extractAux_pair (buffer : List Nat) (offset w : Nat) :
    ∀ (k bit_idx accL accM : Nat),
      bit_idx + k = w →
      (∀ i, i < k → (offset + bit_idx + i) / 8 < buffer.length) →
      (∀ i, i < w → accM.testBit (w - 1 - i) = accL.testBit i) →
      ∃ l m, extractAux buffer offset k bit_idx accL = some l ∧
        extractMsbAux buffer offset w k bit_idx accM = some m ∧
        ∀ i, i < w → m.testBit (w - 1 - i) = l.testBit i := by
  intro k
  induction k with
  | zero => intro bit_idx accL accM hw hB hacc; exact ⟨accL, accM, rfl, rfl, hacc⟩
  | succ n ih =>
    intro bit_idx accL accM hw hB hacc
    have h0 : (offset + bit_idx) / 8 < buffer.length := by simpa using hB 0 (Nat.succ_pos n)
    have h0n : ¬ buffer.length ≤ (offset + bit_idx) / 8 := by omega
    simp only [extractAux, extractMsbAux]
    rw [if_neg h0n, if_neg h0n]
    refine ih (bit_idx + 1) _ _ (by omega) ?_ ?_
    · intro i hi
      have h2 : offset + (bit_idx + 1) + i = offset + bit_idx + (i + 1) := by omega
      rw [h2]
      exact hB (i + 1) (by omega)
    · intro i hi
      have hbi : bit_idx < w := by omega
      have hble : bitAt buffer (offset + bit_idx) ≤ 1 := Nat.and_le_right
      rw [Nat.testBit_or, Nat.testBit_or, hacc i hi]
      congr 1
      rw [Nat.testBit_shiftLeft, Nat.testBit_shiftLeft, testBit_le_one hble, testBit_le_one hble]
      rcases Nat.lt_trichotomy i bit_idx with hlt | heq | hgt
      · have e1 : w - 1 - bit_idx ≤ w - 1 - i := by omega
        have e2 : (w - 1 - i) - (w - 1 - bit_idx) ≠ 0 := by omega
        have e3 : ¬ bit_idx ≤ i := by omega
        simp [e1, e2, e3]
      · subst heq; simp
      · have e1 : ¬ (w - 1 - bit_idx ≤ w - 1 - i) := by omega
        have e2 : i - bit_idx ≠ 0 := by omega
        simp [e1, e2]

/-- C8: for character widths (at most 8 bits, the `u8` range used by every
caller), `extract_bits_msb` returns exactly the width-bit bit-reversal of
`extract_bits` — bit `width-1-i` of the MSB result equals bit `i` of the LSB
result — and both return `None` exactly when `offset + width` exceeds the
stream length. -/
theorem extract_msb_reverses_lsb (stream : BitStream)
    (hinv : stream.bit_count ≤ 8 * stream.buffer.length)
    (offset width : Nat) (hw : width ≤ 8) :
    (offset + width ≤ stream.len →
      ∃ l m, extract_bits stream offset width = some l ∧
        extract_bits_msb stream offset width = some m ∧
        ∀ i, i < width → m.testBit (width - 1 - i) = l.testBit i) ∧
    (stream.len < offset + width →
      extract_bits stream offset width = none ∧
        extract_bits_msb stream offset width = none) := by
  constructor
  · intro hle
    unfold extract_bits extract_bits_msb
    rw [if_neg (by omega), if_neg (by omega)]
    refine extractAux_pair stream.buffer offset width width 0 0 0 (by omega) ?_
      (fun i hi => by simp [Nat.zero_testBit])
    intro i hi
    have hlt : offset + 0 + i < 8 * stream.buffer.length := by
      have hbc : stream.len = stream.bit_count := rfl
      omega
    omega
  · intro hgt
    exact ⟨by unfold extract_bits; rw [if_pos hgt],
           by unfold extract_bits_msb; rw [if_pos hgt]⟩

/-- C8 witness: extracting 5 bits at offset 1 of the byte `0b10110010`
produces both values and the bit-reversal relation holds between them. -/
theorem extract_msb_reverses_lsb_witness :
    ∃ l m, extract_bits exByte 1 5 = some l ∧ extract_bits_msb exByte 1 5 = some m ∧
      ∀ i, i < 5 → m.testBit (5 - 1 - i) = l.testBit i :=
  (extract_msb_reverses_lsb exByte (by decide) 1 5 (by decide)).1 (by decide)

theorem push_append_mk (s : String) (c : Char) (l : List Char) :
    (s.push c) ++ String.mk l = s ++ String.mk (c :: l) := by
  cases s with
  | mk d =>
    show String.mk ((d ++ [c]) ++ l) = String.mk (d ++ (c :: l))
    simp

theorem append_mk_nil (s : String) : s ++ String.mk [] = s := by
  cases s with
  | mk d => show String.mk (d ++ []) = String.mk d; simp

theorem mk_ne_empty {l : List Char} (h : l ≠ []) : String.mk l ≠ "" := by
  intro hc
  exact h (by simpa using congrArg String.data hc)

theorem decode_track2_character_ok (d : Nat) (hd : d ≤ 15) :
    decode_track2_character d = Except.ok (Char.ofNat (0x30 + d)) := by
  unfold decode_track2_character
  rw [if_pos ⟨by omega, by omega⟩]

theorem track2Loop_run (stream : BitStream)
    (inverted lsb_first swapped_parity even_parity : Bool) :
    ∀ (cs_data : List Nat) (fuel offset : Nat) (result : String) (chars_read : List Nat),
      cs_data.length < fuel →
      (∀ j, j < cs_data.length →
        read_char5 stream (offset + 5 * j) lsb_first inverted = some (cs_data.getD j 0)) →
      read_char5 stream (offset + 5 * cs_data.length) lsb_first inverted = some 0b11111 →
      (∀ c ∈ cs_data,
        check_parity c 5 (if even_parity then ParityType.Even else ParityType.Odd) = true) →
      check_parity 0b11111 5 (if even_parity then ParityType.Even else ParityType.Odd)
        = true →
      (∀ c ∈ cs_data, c ≠ 0b11111) →
      track2Loop stream inverted lsb_first false swapped_parity even_parity
          fuel offset result chars_read
        = track2AfterEnd stream inverted lsb_first (offset + 5 * cs_data.length + 5)
            (chars_read ++ cs_data)
            (result ++ String.mk (cs_data.map fun c => Char.ofNat (0x30 + (c &&& 0x0F)))) := by
  intro cs_data
  induction cs_data with
  | nil =>
    intro fuel offset result chars_read hfuel hread hes hpar hpares hne
    simp only [List.length_nil, Nat.mul_zero, Nat.add_zero] at hes ⊢
    simp only [List.append_nil, List.map_nil, append_mk_nil]
    cases fuel with
    | zero => omega
    | succ f =>
      have hb : offset + 5 ≤ stream.len := read_char5_some_bound hes
      simp only [track2Loop]
      rw [if_pos (by omega), hes]
      dsimp only
      rw [if_neg (by simp [hpares]), if_pos (by constructor <;> trivial)]
      unfold track2AfterEnd
      rw [List.dropLast_concat]
  | cons c rest ih =>
    intro fuel offset result chars_read hfuel hread hes hpar hpares hne
    simp only [List.length_cons] at hfuel hes
    cases fuel with
    | zero => omega
    | succ f =>
      have hc : read_char5 stream offset lsb_first inverted = some c := by
        simpa using hread 0 (by simp)
      have hb : offset + 5 ≤ stream.len := read_char5_some_bound hc
      simp only [track2Loop]
      rw [if_pos (by omega), hc]
      dsimp only
      rw [if_neg (by simp [hpar c (by simp)])]
      rw [if_neg (by simp [hne c (by simp)])]
      rw [ite_self, decode_track2_character_ok (c &&& 0x0F) Nat.and_le_right]
      dsimp only
      simp only [List.length_cons]
      rw [show offset + 5 * (rest.length + 1) + 5 = offset + 5 + 5 * rest.length + 5 by ring]
      rw [show chars_read ++ c :: rest = (chars_read ++ [c]) ++ rest from by simp]
      rw [List.map_cons, ← push_append_mk]
      refine ih f (offset + 5) (result.push (Char.ofNat (0x30 + (c &&& 0x0F))))
        (chars_read ++ [c]) (by omega) ?_ ?_ (fun c2 h2 => hpar c2 (by simp [h2])) hpares
        (fun c2 h2 => hne c2 (by simp [h2]))
      · intro j hj
        have h3 := hread (j + 1) (by simpa using Nat.succ_lt_succ hj)
        rw [show offset + 5 * (j + 1) = offset + 5 + 5 * j by ring] at h3
        simpa using h3
      · rw [show offset + 5 + 5 * rest.length = offset + 5 * (rest.length + 1) by ring]
        exact hes

theorem track2Search_locks (stream : BitStream) (lsb_first inverted : Bool) (o0 : Nat)
    (hss : read_char5 stream o0 lsb_first inverted = some 0b01011)
    (hfirst : ∀ o, o < o0 → read_char5 stream o lsb_first inverted ≠ some 0b01011)
    (hsome : ∀ o, o < o0 → (read_char5 stream o lsb_first inverted).isSome = true) :
    ∀ (fuel start : Nat), start ≤ o0 → o0 - start < fuel →
      track2Search stream lsb_first inverted fuel start = some (Except.ok o0) := by
  intro fuel
  induction fuel with
  | zero => intro start h1 h2; omega
  | succ f ih =>
    intro start h1 h2
    have hb : o0 + 5 ≤ stream.len := read_char5_some_bound hss
    simp only [track2Search]
    rw [if_pos (by omega)]
    by_cases he : start = o0
    · subst he
      rw [hss]
      dsimp only
      rw [if_pos rfl]
    · have hlt : start < o0 := by omega
      obtain ⟨v, hv⟩ := Option.isSome_iff_exists.mp (hsome start hlt)
      have hvne : v ≠ 0b01011 := fun hveq => hfirst start hlt (hveq ▸ hv)
      rw [hv]
      dsimp only
      rw [if_neg hvne]
      exact ih (start + 1) (by omega) (by omega)

/-- C1 (amended): for every non-raw Track 2-family decode whose stream locks
on the start sentinel at `o0` and then carries parity-valid characters `mid`,
the end sentinel, and a readable checksum character `x`, the expected
checksum is `lrcTrack2` over the characters from the start sentinel through
the character *before* the end sentinel (the end sentinel itself is excluded,
as is the checksum character), XOR'd with `0x1F` when polarity-inverted, and
decode fails with `LrcCheckFailed` exactly when `x` differs from it. -/
theorem track2_lrc_window (stream : BitStream)
    (inverted lsb_first swapped_parity even_parity : Bool)
    (o0 : Nat) (mid : List Nat) (x : Nat)
    (hinv : stream.bit_count ≤ 8 * stream.buffer.length)
    (hfirst : ∀ o, o < o0 → read_char5 stream o lsb_first inverted ≠ some 0b01011)
    (hss : read_char5 stream o0 lsb_first inverted = some 0b01011)
    (hmid : ∀ j, j < mid.length →
      read_char5 stream (o0 + 5 + 5 * j) lsb_first inverted = some (mid.getD j 0))
    (hes : read_char5 stream (o0 + 5 + 5 * mid.length) lsb_first inverted = some 0b11111)
    (hx : read_char5 stream (o0 + 5 + 5 * mid.length + 5) lsb_first inverted = some x)
    (hpar : ∀ c ∈ mid,
      check_parity c 5 (if even_parity then ParityType.Even else ParityType.Odd) = true)
    (hpares : check_parity 0b11111 5
      (if even_parity then ParityType.Even else ParityType.Odd) = true)
    (hne : ∀ c ∈ mid, c ≠ 0b11111) :
    (decode_track2 stream inverted lsb_first false swapped_parity even_parity
        = some (Except.error DecoderError.LrcCheckFailed))
      ↔ x ≠ (if inverted then calculate_lrc_track2 (0b01011 :: mid) ^^^ 0x1F
             else calculate_lrc_track2 (0b01011 :: mid)) := by
  have hxb : o0 + 5 + 5 * mid.length + 5 + 5 ≤ stream.len := read_char5_some_bound hx
  have hssb : o0 + 5 ≤ stream.len := read_char5_some_bound hss
  rw [decode_track2_nonraw_eq]
  rw [if_neg (by omega)]
  have hsearch : track2Search stream lsb_first inverted (stream.len + 1) 0
      = some (Except.ok o0) :=
    track2Search_locks stream lsb_first inverted o0 hss hfirst
      (fun o ho => by
        obtain ⟨v, hv⟩ := @read_char5_total stream hinv o lsb_first inverted
          (show o + 5 ≤ stream.len by omega)
        simp [hv])
      (stream.len + 1) 0 (by omega) (by omega)
  rw [hsearch]
  dsimp only
  rw [if_neg (by omega)]
  rw [track2Loop_run stream inverted lsb_first swapped_parity even_parity mid
      (stream.len + 1) (o0 + 5) "" [0b01011] (by omega) hmid hes hpar hpares hne]
  unfold track2AfterEnd
  rw [if_pos (by omega), hx]
  dsimp only
  by_cases hxc : x = (if inverted then calculate_lrc_track2 (0b01011 :: mid) ^^^ 0x1F
      else calculate_lrc_track2 (0b01011 :: mid))
  · rw [if_neg (by simpa using hxc)]
    simp only [hxc, ne_eq, not_true_eq_false, iff_false]
    intro hcontra
    have h2 : track2Finish ("" ++ String.mk (mid.map fun c => Char.ofNat (0x30 + (c &&& 0x0F))))
        = Except.error DecoderError.LrcCheckFailed := by
      exact Option.some.inj hcontra
    unfold track2Finish at h2
    split_ifs at h2 <;> simp at h2
  · rw [if_pos (by simpa using hxc)]
    simp [hxc]

/-- C1 witness: `ex20` carries `; 1 ? L` with `L = lrcTrack2(;1) = 0b01010`;
by the amended theorem its decode does not fail the checksum (it in fact
succeeds with `"1"`). -/
theorem track2_lrc_window_witness :
    decode_track2 ex20 false true false false false = some (Except.ok "1") ∧
    decode_track2 ex20 false true false false false
      ≠ some (Except.error DecoderError.LrcCheckFailed) := by
  refine ⟨by decide, fun hcontra => ?_⟩
  have h := (track2_lrc_window ex20 false true false false 0 [1] 10 (by decide)
    (fun o ho => absurd ho (Nat.not_lt_zero o))
    (by decide) (by decide) (by decide) (by decide) (by decide) (by decide)
    (by decide)).mp hcontra
  exact h (by decide)

/-- C1 counterexample: in the 20-bit stream `ex20ce` the decoder locks at
bit 0 and reads `; 1 ?` followed by a checksum character equal to
`lrcTrack2(; 1 ?)` — the claim's expected value, computed through the end
sentinel inclusive — yet decoding fails with `LrcCheckFailed`, because the
code's LRC window excludes the end sentinel. -/
theorem track2_lrc_window_cex :
    read_char5 ex20ce 0 true false = some 0b01011 ∧
    read_char5 ex20ce 5 true false = some 0b00001 ∧
    read_char5 ex20ce 10 true false = some 0b11111 ∧
    read_char5 ex20ce 15 true false = some 5 ∧
    calculate_lrc_track2 [0b01011, 0b00001, 0b11111] = 5 ∧
    decode_track2 ex20ce false true false false false
      = some (Except.error DecoderError.LrcCheckFailed) := by
  refine ⟨?_, ?_, ?_, ?_, ?_, ?_⟩ <;> decide

theorem empty_append (s : String) : "" ++ s = s := by
  cases s with
  | mk d => show String.mk ([] ++ d) = String.mk d; simp

theorem decode_track1_character_ok (d : Nat) (hd : d ≤ 63) :
    decode_track1_character d = Except.ok (Char.ofNat (0x20 + d)) := by
  unfold decode_track1_character
  rw [if_pos ⟨by omega, by omega⟩]

theorem track1_char_eq {stream : BitStream} {off : Nat} {inverted : Bool} {c : Nat}
    (h : track1_char stream off inverted = some c) :
    ∃ raw, extract_bits stream off 7 = some raw ∧
      (if inverted then invert_bits raw &&& 0x7F else raw) = c := by
  unfold track1_char at h
  cases hx : extract_bits stream off 7 with
  | none => rw [hx] at h; exact absurd h (by simp)
  | some raw => rw [hx] at h; exact ⟨raw, rfl, by simpa using h⟩

theorem track1Loop_run_pre (stream : BitStream) (inverted : Bool) :
    ∀ (pre : List Nat) (fuel offset : Nat) (result : String) (chars_read : List Nat),
      pre.length ≤ fuel →
      (∀ j, j < pre.length →
        track1_char stream (offset + 7 * j) inverted = some (pre.getD j 0)) →
      (∀ c ∈ pre, check_parity c 7 ParityType.Odd = true) →
      (∀ c ∈ pre, c &&& 0x3F ≠ 0b0000101) →
      track1Loop stream inverted fuel offset false result chars_read
        = track1Loop stream inverted (fuel - pre.length) (offset + 7 * pre.length)
            false result (chars_read ++ pre) := by
  intro pre
  induction pre with
  | nil => intro fuel offset result chars_read _ _ _ _; simp
  | cons p rest ih =>
    intro fuel offset result chars_read hfuel hread hpar hne
    simp only [List.length_cons] at hfuel ⊢
    cases fuel with
    | zero => omega
    | succ f =>
      have hp0 : track1_char stream offset inverted = some p := by
        simpa using hread 0 (by simp)
      obtain ⟨raw, hraw, hchar⟩ := track1_char_eq hp0
      have hb : offset + 7 ≤ stream.len := extract_bits_some_bound hraw
      simp only [track1Loop]
      rw [if_pos hb, hraw]
      dsimp only
      rw [hchar]
      rw [if_neg (by simp [hpar p (by simp)])]
      rw [if_pos trivial]
      rw [show (decide (p &&& 0x3F = 0b0000101)) = false from
        decide_eq_false (hne p (by simp))]
      rw [show offset + 7 * (rest.length + 1) = offset + 7 + 7 * rest.length by ring]
      rw [show chars_read ++ p :: rest = (chars_read ++ [p]) ++ rest from by simp]
      rw [show f + 1 - (rest.length + 1) = f - rest.length from by omega]
      refine ih f (offset + 7) result (chars_read ++ [p]) (by omega) ?_
        (fun c2 h2 => hpar c2 (by simp [h2])) (fun c2 h2 => hne c2 (by simp [h2]))
      intro j hj
      have h3 := hread (j + 1) (by simpa using Nat.succ_lt_succ hj)
      rw [show offset + 7 * (j + 1) = offset + 7 + 7 * j by ring] at h3
      simpa using h3

theorem track1Loop_run_main (stream : BitStream) (inverted : Bool) :
    ∀ (mid : List Nat) (e : Nat) (fuel offset : Nat) (result : String)
      (chars_read : List Nat),
      mid.length < fuel →
      (∀ j, j < mid.length →
        track1_char stream (offset + 7 * j) inverted = some (mid.getD j 0)) →
      track1_char stream (offset + 7 * mid.length) inverted = some e →
      (∀ c ∈ mid, check_parity c 7 ParityType.Odd = true) →
      check_parity e 7 ParityType.Odd = true →
      (∀ c ∈ mid, c &&& 0x3F ≠ 0b0011111) →
      e &&& 0x3F = 0b0011111 →
      track1Loop stream inverted fuel offset true result chars_read
        = track1AfterEnd stream (offset + 7 * mid.length + 7) (chars_read ++ mid)
            (result ++ String.mk (mid.map fun c => Char.ofNat (0x20 + (c &&& 0x3F)))) := by
  intro mid
  induction mid with
  | nil =>
    intro e fuel offset result chars_read hfuel hread hes hpar hpares hne hes_data
    simp only [List.length_nil, Nat.mul_zero, Nat.add_zero] at hes ⊢
    simp only [List.append_nil, List.map_nil, append_mk_nil]
    cases fuel with
    | zero => omega
    | succ f =>
      obtain ⟨raw, hraw, hchar⟩ := track1_char_eq hes
      have hb : offset + 7 ≤ stream.len := extract_bits_some_bound hraw
      simp only [track1Loop]
      rw [if_pos hb, hraw]
      dsimp only
      rw [hchar]
      rw [if_neg (by simp [hpares])]
      rw [if_neg (by simp)]
      rw [if_pos hes_data]
      unfold track1AfterEnd
      rw [List.dropLast_concat]
  | cons c rest ih =>
    intro e fuel offset result chars_read hfuel hread hes hpar hpares hne hes_data
    simp only [List.length_cons] at hfuel hes
    cases fuel with
    | zero => omega
    | succ f =>
      have hc : track1_char stream offset inverted = some c := by
        simpa using hread 0 (by simp)
      obtain ⟨raw, hraw, hchar⟩ := track1_char_eq hc
      have hb : offset + 7 ≤ stream.len := extract_bits_some_bound hraw
      simp only [track1Loop]
      rw [if_pos hb, hraw]
      dsimp only
      rw [hchar]
      rw [if_neg (by simp [hpar c (by simp)])]
      rw [if_neg (by simp)]
      rw [if_neg (hne c (by simp))]
      rw [decode_track1_character_ok (c &&& 0x3F) Nat.and_le_right]
      dsimp only
      simp only [List.length_cons]
      rw [show offset + 7 * (rest.length + 1) + 7 = offset + 7 + 7 * rest.length + 7 by ring]
      rw [show chars_read ++ c :: rest = (chars_read ++ [c]) ++ rest from by simp]
      rw [List.map_cons, ← push_append_mk]
      refine ih e f (offset + 7) (result.push (Char.ofNat (0x20 + (c &&& 0x3F))))
        (chars_read ++ [c]) (by omega) ?_ ?_ (fun c2 h2 => hpar c2 (by simp [h2])) hpares
        (fun c2 h2 => hne c2 (by simp [h2])) hes_data
      · intro j hj
        have h3 := hread (j + 1) (by simpa using Nat.succ_lt_succ hj)
        rw [show offset + 7 * (j + 1) = offset + 7 + 7 * j by ring] at h3
        simpa using h3
      · rw [show offset + 7 + 7 * rest.length = offset + 7 * (rest.length + 1) by ring]
        exact hes

/-- C2 (amended): for every Track 1 decode whose stream carries parity-valid
characters `pre` (none with start-sentinel data bits), the start sentinel
`s`, characters `mid` (none with end-sentinel data bits), the end sentinel
`e`, and a readable raw checksum window `x`, the expected checksum is
`lrcTrack1` over *all* characters read from the beginning of the stream —
including the pre-sentinel characters and the start sentinel — up to but
excluding the end sentinel (and excluding the checksum character), and decode
fails with `LrcCheckFailed` exactly when the low 7 bits of `x` differ from
it. -/
theorem track1_lrc_window (stream : BitStream) (inverted : Bool)
    (pre mid : List Nat) (s e x : Nat)
    (hpre_read : ∀ j, j < pre.length →
      track1_char stream (7 * j) inverted = some (pre.getD j 0))
    (hs : track1_char stream (7 * pre.length) inverted = some s)
    (hmid : ∀ j, j < mid.length →
      track1_char stream (7 * pre.length + 7 + 7 * j) inverted = some (mid.getD j 0))
    (he : track1_char stream (7 * pre.length + 7 + 7 * mid.length) inverted = some e)
    (hx : extract_bits stream (7 * pre.length + 7 + 7 * mid.length + 7) 7 = some x)
    (hpre_par : ∀ c ∈ pre, check_parity c 7 ParityType.Odd = true)
    (hs_par : check_parity s 7 ParityType.Odd = true)
    (hmid_par : ∀ c ∈ mid, check_parity c 7 ParityType.Odd = true)
    (he_par : check_parity e 7 ParityType.Odd = true)
    (hpre_ne : ∀ c ∈ pre, c &&& 0x3F ≠ 0b0000101)
    (hs_data : s &&& 0x3F = 0b0000101)
    (hmid_ne : ∀ c ∈ mid, c &&& 0x3F ≠ 0b0011111)
    (he_data : e &&& 0x3F = 0b0011111) :
    (decode_track1 stream inverted = some (Except.error DecoderError.LrcCheckFailed))
      ↔ x &&& 0x7F ≠ calculate_lrc_track1 (pre ++ s :: mid) := by
  have hxb : 7 * pre.length + 7 + 7 * mid.length + 7 + 7 ≤ stream.len :=
    extract_bits_some_bound hx
  unfold decode_track1
  rw [if_neg (by omega)]
  rw [track1Loop_run_pre stream inverted pre (stream.len + 1) 0 "" [] (by omega)
    (fun j hj => by simpa using hpre_read j hj) hpre_par hpre_ne]
  simp only [List.nil_append, Nat.zero_add]
  obtain ⟨f2, hf2⟩ := Nat.exists_eq_succ_of_ne_zero
    (show stream.len + 1 - pre.length ≠ 0 by omega)
  rw [hf2]
  obtain ⟨raw, hraw, hchar⟩ := track1_char_eq hs
  have hb : 7 * pre.length + 7 ≤ stream.len := extract_bits_some_bound hraw
  simp only [track1Loop]
  rw [if_pos hb, hraw]
  dsimp only
  rw [hchar]
  rw [if_neg (by simp [hs_par])]
  rw [if_pos trivial]
  rw [show (decide (s &&& 0x3F = 0b0000101)) = true from decide_eq_true hs_data]
  rw [track1Loop_run_main stream inverted mid e f2 (7 * pre.length + 7) "" (pre ++ [s])
    (by omega) hmid he hmid_par he_par hmid_ne he_data]
  unfold track1AfterEnd
  rw [if_pos (by omega), hx]
  simp only [Option.getD_some]
  rw [show (pre ++ [s]) ++ mid = pre ++ s :: mid from by simp]
  by_cases hxc : x &&& 0x7F = calculate_lrc_track1 (pre ++ s :: mid)
  · rw [if_neg (by simpa using hxc)]
    simp only [hxc, ne_eq, not_true_eq_false, iff_false]
    intro hcontra
    have h2 : track1Finish true
        ("" ++ String.mk (mid.map fun c => Char.ofNat (0x20 + (c &&& 0x3F))))
        = Except.error DecoderError.LrcCheckFailed := Option.some.inj hcontra
    unfold track1Finish at h2
    split_ifs at h2 <;> simp at h2
  · rw [if_pos (by simpa using hxc)]
    simp [hxc]

/-- C2 witness: `ex28` carries `% 1 ? L` with `L = lrcTrack1(%1) = 84`; by
the amended theorem its decode does not fail the checksum (it in fact
succeeds with `"1"`). -/
theorem track1_lrc_window_witness :
    decode_track1 ex28 false = some (Except.ok "1") ∧
    decode_track1 ex28 false ≠ some (Except.error DecoderError.LrcCheckFailed) := by
  refine ⟨by decide, fun hcontra => ?_⟩
  have h := (track1_lrc_window ex28 false [] [81] 69 31 84
    (by decide) (by decide) (by decide) (by decide) (by decide)
    (by decide) (by decide) (by decide) (by decide)
    (by decide) (by decide) (by decide) (by decide)).mp hcontra
  exact h (by decide)

/-- C2 counterexample: in the 35-bit stream `ex35ce` the decoder reads one
character (`a`, value 97) before the start sentinel, then `% 1 ?`, and the
raw checksum window at offset 28 equals `lrcTrack1(% 1 ?)` — the claim's
expected value (pre-sentinel characters excluded, end sentinel included) —
yet decoding fails with `LrcCheckFailed`: the code's LRC window includes the
pre-sentinel character and excludes the end sentinel
(`lrcTrack1(a % 1) = 117 ≠ 11`). -/
theorem track1_lrc_window_cex :
    track1_char ex35ce 0 false = some 97 ∧
    track1_char ex35ce 7 false = some 69 ∧
    track1_char ex35ce 14 false = some 81 ∧
    track1_char ex35ce 21 false = some 31 ∧
    extract_bits ex35ce 28 7 = some 11 ∧
    calculate_lrc_track1 [69, 81, 31] = 11 ∧
    calculate_lrc_track1 [97, 69, 81] = 117 ∧
    decode_track1 ex35ce false = some (Except.error DecoderError.LrcCheckFailed) := by
  refine ⟨?_, ?_, ?_, ?_, ?_, ?_, ?_, ?_⟩ <;> decide

/-- C10: in both the Track 1 and the non-raw Track 2-family decoders, when
the end sentinel is found but fewer than one full character width (7 or 5
bits) remains after it, checksum verification is silently skipped and decode
succeeds with the decoded payload (given a non-empty payload and, for
Track 1, a found start sentinel); no checksum error is raised. -/
theorem lrc_skipped_when_truncated :
    (∀ (stream : BitStream) (inverted lsb_first swapped_parity even_parity : Bool)
        (o0 : Nat) (mid : List Nat),
      stream.bit_count ≤ 8 * stream.buffer.length →
      (∀ o, o < o0 → read_char5 stream o lsb_first inverted ≠ some 0b01011) →
      read_char5 stream o0 lsb_first inverted = some 0b01011 →
      (∀ j, j < mid.length →
        read_char5 stream (o0 + 5 + 5 * j) lsb_first inverted = some (mid.getD j 0)) →
      read_char5 stream (o0 + 5 + 5 * mid.length) lsb_first inverted = some 0b11111 →
      stream.len < o0 + 5 + 5 * mid.length + 5 + 5 →
      (∀ c ∈ mid,
        check_parity c 5 (if even_parity then ParityType.Even else ParityType.Odd) = true) →
      check_parity 0b11111 5 (if even_parity then ParityType.Even else ParityType.Odd)
        = true →
      (∀ c ∈ mid, c ≠ 0b11111) →
      mid ≠ [] →
      decode_track2 stream inverted lsb_first false swapped_parity even_parity
        = some (Except.ok (String.mk (mid.map fun c => Char.ofNat (0x30 + (c &&& 0x0F)))))) ∧
    (∀ (stream : BitStream) (inverted : Bool) (pre mid : List Nat) (s e : Nat),
      (∀ j, j < pre.length →
        track1_char stream (7 * j) inverted = some (pre.getD j 0)) →
      track1_char stream (7 * pre.length) inverted = some s →
      (∀ j, j < mid.length →
        track1_char stream (7 * pre.length + 7 + 7 * j) inverted = some (mid.getD j 0)) →
      track1_char stream (7 * pre.length + 7 + 7 * mid.length) inverted = some e →
      stream.len < 7 * pre.length + 7 + 7 * mid.length + 7 + 7 →
      (∀ c ∈ pre, check_parity c 7 ParityType.Odd = true) →
      check_parity s 7 ParityType.Odd = true →
      (∀ c ∈ mid, check_parity c 7 ParityType.Odd = true) →
      check_parity e 7 ParityType.Odd = true →
      (∀ c ∈ pre, c &&& 0x3F ≠ 0b0000101) →
      s &&& 0x3F = 0b0000101 →
      (∀ c ∈ mid, c &&& 0x3F ≠ 0b0011111) →
      e &&& 0x3F = 0b0011111 →
      mid ≠ [] →
      decode_track1 stream inverted
        = some (Except.ok (String.mk (mid.map fun c => Char.ofNat (0x20 + (c &&& 0x3F)))))) := by
  constructor
  · intro stream inverted lsb_first swapped_parity even_parity o0 mid
      hinv hfirst hss hmid hes hshort hpar hpares hne hmidne
    have hesb : o0 + 5 + 5 * mid.length + 5 ≤ stream.len := read_char5_some_bound hes
    have hssb : o0 + 5 ≤ stream.len := read_char5_some_bound hss
    have hmid1 : 1 ≤ mid.length := List.length_pos.mpr hmidne
    rw [decode_track2_nonraw_eq]
    rw [if_neg (by omega)]
    have hsearch : track2Search stream lsb_first inverted (stream.len + 1) 0
        = some (Except.ok o0) :=
      track2Search_locks stream lsb_first inverted o0 hss hfirst
        (fun o ho => by
          obtain ⟨v, hv⟩ := @read_char5_total stream hinv o lsb_first inverted
            (show o + 5 ≤ stream.len by omega)
          simp [hv])
        (stream.len + 1) 0 (by omega) (by omega)
    rw [hsearch]
    dsimp only
    rw [if_neg (by omega)]
    rw [track2Loop_run stream inverted lsb_first swapped_parity even_parity mid
        (stream.len + 1) (o0 + 5) "" [0b01011] (by omega) hmid hes hpar hpares hne]
    unfold track2AfterEnd
    rw [if_neg (by omega)]
    rw [empty_append]
    unfold track2Finish
    rw [if_neg (mk_ne_empty (by simpa using hmidne))]
  · intro stream inverted pre mid s e hpre_read hs hmid he hshort
      hpre_par hs_par hmid_par he_par hpre_ne hs_data hmid_ne he_data hmidne
    have heb : 7 * pre.length + 7 + 7 * mid.length + 7 ≤ stream.len :=
      track1_char_some_bound he
    have hmid1 : 1 ≤ mid.length := List.length_pos.mpr hmidne
    unfold decode_track1
    rw [if_neg (by omega)]
    rw [track1Loop_run_pre stream inverted pre (stream.len + 1) 0 "" [] (by omega)
      (fun j hj => by simpa using hpre_read j hj) hpre_par hpre_ne]
    simp only [List.nil_append, Nat.zero_add]
    obtain ⟨f2, hf2⟩ := Nat.exists_eq_succ_of_ne_zero
      (show stream.len + 1 - pre.length ≠ 0 by omega)
    rw [hf2]
    obtain ⟨raw, hraw, hchar⟩ := track1_char_eq hs
    have hb : 7 * pre.length + 7 ≤ stream.len := extract_bits_some_bound hraw
    simp only [track1Loop]
    rw [if_pos hb, hraw]
    dsimp only
    rw [hchar]
    rw [if_neg (by simp [hs_par])]
    rw [if_pos trivial]
    rw [show (decide (s &&& 0x3F = 0b0000101)) = true from decide_eq_true hs_data]
    rw [track1Loop_run_main stream inverted mid e f2 (7 * pre.length + 7) "" (pre ++ [s])
      (by omega) hmid he hmid_par he_par hmid_ne he_data]
    unfold track1AfterEnd
    rw [if_neg (by omega)]
    rw [empty_append]
    unfold track1Finish
    rw [if_neg (by simp)]
    rw [if_neg (mk_ne_empty (by simpa using hmidne))]

/-- C10 witness: `ex15` ends exactly at the Track 2 end sentinel and decodes
to `"1"` with no checksum read; `ex21` ends exactly at the Track 1 end
sentinel and decodes to `"1"` with no checksum read. -/
theorem lrc_skipped_when_truncated_witness :
    decode_track2 ex15 false true false false false = some (Except.ok "1") ∧
    decode_track1 ex21 false = some (Except.ok "1") := by
  constructor
  · have h := lrc_skipped_when_truncated.1 ex15 false true false false 0 [1]
      (by decide) (by decide) (by decide) (by decide) (by decide) (by decide)
      (by decide) (by decide) (by decide) (by decide)
    rw [h]
    rfl
  · have h := lrc_skipped_when_truncated.2 ex21 false [] [81] 69 31
      (by decide) (by decide) (by decide) (by decide) (by decide) (by decide)
      (by decide) (by decide) (by decide) (by decide) (by decide) (by decide)
      (by decide) (by decide)
    rw [h]
    rfl

end Magstripe
